import Mathlib

/-!
# Shallow embedding of the iota.rs client core

This file embeds the behaviours of `src/iota-client/src/client.rs` and
`src/iota-client/src/api/unspent.rs` as Lean definitions and proves the
specification claims about them.

Conventions:
* Network collaborators (health probes, balance queries, node info, tips)
  are passed in as oracle functions; the embedded code is the decision
  logic of the Rust source.
* Rust `Result<T, Error>` becomes `Except Error T`; a Rust panic
  (`unwrap` on `None`) is a distinct `Outcome.panicked` constructor,
  since a panic is not a returned error.
* Machine integers that matter (the 64-bit network id) are `Nat` with
  explicit bounds; byte values are `Nat`s below 256.
-/

namespace IotaClient

/-- The error variants of `crate::error::Error` used by the embedded
functions (from `src/iota-client/src/error.rs`, as referenced by
`client.rs` and `unspent.rs`). -/
inductive Error where
  | MissingParameter (name : String)
  | InvalidParameter (name : String)
  | SyncedNodePoolEmpty
  | Pow (msg : String)
  | TransactionError
  | NoNeedPromoteOrReattach (message_id : String)
  | NetworkError
deriving DecidableEq, Repr

/-- Outcome of running a Rust function that may return `Ok`, return `Err`,
or panic (e.g. `unwrap()` on `None`). -/
inductive Outcome (α : Type) where
  | ok (value : α)
  | err (e : Error)
  | panicked
deriving DecidableEq, Repr

/-! ## PoW provider (`ClientMiner::nonce`, client.rs lines 129-139)

`nonce` checks the `local_pow` flag: in local mode it delegates to the
external `bee_pow` miner (modelled as an oracle `localSearch`, which may
fail with an error string that the code wraps in `Error::Pow`); in remote
mode it returns `Ok(0)` without touching the payload or the target score.
The target score is `f64` in Rust; it is only passed through to the
oracle, so it is embedded as an arbitrary type `σ`. -/

structure ClientMiner where
  local_pow : Bool

def ClientMiner.nonce {σ : Type} (self : ClientMiner)
    (localSearch : List Nat → σ → Except String Nat)
    (bytes : List Nat) (target_score : σ) : Except Error Nat :=
  if self.local_pow then
    match localSearch bytes target_score with
    | Except.ok n => Except.ok n
    | Except.error e => Except.error (Error.Pow e)
  else
    Except.ok 0

/-! ## Node pool synchronizer (`Client::sync_nodes`, client.rs lines 220-232)

The probe `Client::get_node_health` is a network call returning
`Result<bool>`; it is modelled as an oracle `health : U → Option Bool`
where `none` is a probe error and `some b` a successful probe reporting
`b`.  The Rust code runs `get_node_health(url).await.unwrap_or(false)`,
so an erroring probe counts as unhealthy and never aborts the cycle.
The configured node list is a `Vec<Url>` (here `List U`), the shared
healthy set a `HashSet<Url>` (here the filtered list, read up to
membership).  The final statement `*sync.write().unwrap() = synced_nodes`
replaces the whole set, discarding the previous contents. -/

def sync_nodes {U : Type} (nodes : List U) (health : U → Option Bool) : List U :=
  nodes.filter (fun node_url => (health node_url).getD false)

/-- The shared client sync state: the healthy node pool
(`Client.sync : Arc<RwLock<HashSet<Url>>>`). -/
structure SyncState (U : Type) where
  sync : List U

/-- One complete `sync_nodes` cycle as a state update: the new healthy
set is computed from the configured `nodes` and the probe outcomes alone
and overwrites the previous set. -/
def sync_nodes_cycle {U : Type} (_st : SyncState U) (nodes : List U)
    (health : U → Option Bool) : SyncState U :=
  { sync := sync_nodes nodes health }

/-! ## Background sync task (`Client::start_sync_process`, client.rs lines 194-218)

The spawned task is `loop { tokio::select! { A => {} , B => {} } }` with
branch `A = { delay_for(interval).await; sync_nodes(..).await }` and
branch `B = kill.recv()`.  One loop iteration is embedded as a function
of whether the kill branch is immediately ready (the cancellation signal
has fired, or the channel is closed after the sender was dropped): when
it is, `kill.recv()` completes before the delay branch, whose
`delay_for` needs a full (nonzero) interval, so the select resolves to
the kill branch and drops branch `A` before `sync_nodes` runs.  Neither
select arm contains `break` or `return`, so after either branch the
`loop` continues. -/

structure SyncTaskIter where
  /-- whether this iteration executed `Client::sync_nodes` -/
  calls_sync_nodes : Bool
  /-- whether the `loop` continues with a next iteration afterwards -/
  continues : Bool
deriving DecidableEq, Repr

def sync_loop_iteration (kill_ready : Bool) : SyncTaskIter :=
  if kill_ready then
    { calls_sync_nodes := false, continues := true }
  else
    { calls_sync_nodes := true, continues := true }

/-- The iterations the task performs after the cancellation signal has
been observed: the broadcast channel has delivered its message and the
sender is dropped, so `kill.recv()` is ready in every subsequent
iteration. -/
def sync_task_after_cancel (n : Nat) : List SyncTaskIter :=
  (List.range n).map (fun _ => sync_loop_iteration true)

/-! ## Node selection (`Client::get_node`, client.rs lines 235-238)

`get_node` takes a read-lock snapshot of the pool and returns
`pool.iter().next()`, an arbitrary element of the `HashSet`, or
`Error::SyncedNodePoolEmpty` when the set is empty.  The snapshot is
embedded as a list; iteration order of the hash set is unspecified, so
the embedding returns the list head.  The function is pure in the
snapshot: it performs no network call and does not write the pool. -/

def get_node {U : Type} (pool : List U) : Except Error U :=
  match pool with
  | [] => Except.error Error.SyncedNodePoolEmpty
  | u :: _ => Except.ok u

/-! ## Message lifecycle (`Client::retry`, client.rs lines 550-560;
`Client::promote`, lines 462-474; `Client::reattach`, lines 441-458)

`retry` queries the message metadata (`should_promote` and
`should_reattach` are optional booleans in the response, read with
`unwrap_or(false)`) and then either delegates to `promote`, delegates to
`reattach`, or returns `Error::NoNeedPromoteOrReattach` without any
further call.  To reason about which network requests each path issues,
the embedding also produces the trace of API calls made after the
metadata query. -/

structure MessageMetadata where
  should_promote : Option Bool
  should_reattach : Option Bool
deriving DecidableEq, Repr

inductive RetryDelegation where
  | promote
  | reattach
deriving DecidableEq, Repr

/-- The decision made by `Client::retry` after fetching the metadata. -/
def retry (message_id : String) (metadata : MessageMetadata) :
    Except Error RetryDelegation :=
  if metadata.should_promote.getD false then
    Except.ok RetryDelegation.promote
  else if metadata.should_reattach.getD false then
    Except.ok RetryDelegation.reattach
  else
    Except.error (Error.NoNeedPromoteOrReattach message_id)

/-- The network calls issued by the embedded client functions. -/
inductive ApiCall where
  | get_message_metadata
  | get_message_data
  | get_tips
  | get_node_info
  | post_message
deriving DecidableEq, Repr

/-- Calls issued by `Client::promote`: fetch tips, derive the network id
(one node-info query inside `get_network_id`), post the new message. -/
def promote_trace : List ApiCall :=
  [ApiCall.get_tips, ApiCall.get_node_info, ApiCall.post_message]

/-- Calls issued by `Client::reattach`: fetch the original message,
fetch tips, derive the network id, post the new message. -/
def reattach_trace : List ApiCall :=
  [ApiCall.get_message_data, ApiCall.get_tips, ApiCall.get_node_info,
   ApiCall.post_message]

/-- The full call trace of `Client::retry`: the metadata query, then the
calls of the chosen delegation (none when it errors out). -/
def retry_trace (message_id : String) (metadata : MessageMetadata) :
    List ApiCall :=
  ApiCall.get_message_metadata ::
    (match retry message_id metadata with
     | Except.ok RetryDelegation.promote => promote_trace
     | Except.ok RetryDelegation.reattach => reattach_trace
     | Except.error _ => [])

/-! ## Reattach (`Client::reattach`, client.rs lines 441-458)

`reattach` fetches the original message, fetches fresh tips, builds a
new message with the freshly derived network id and
`message.payload().to_owned().unwrap()` — an unchecked `unwrap` on the
optional payload, which panics when the payload is absent — maps any
builder failure to `Error::TransactionError`, and posts the result.
The external pieces (the fetched message, the tips, the network id, the
`bee_message` builder, the posted id) are inputs; the embedded function
is the branching logic of `reattach` itself. -/

structure Message (T P : Type) where
  payload : Option P
  parent1 : T
  parent2 : T
  network_id : Nat
deriving DecidableEq, Repr

def reattach {T P : Type} (message : Message T P) (tips : T × T)
    (network_id : Nat)
    (finish : Message T P → Except Unit (Message T P))
    (posted_id : String) : Outcome (String × Message T P) :=
  match message.payload with
  | none => Outcome.panicked
  | some p =>
    match finish { payload := some p, parent1 := tips.1, parent2 := tips.2,
                   network_id := network_id } with
    | Except.error _ => Outcome.err Error.TransactionError
    | Except.ok reattach_message => Outcome.ok (posted_id, reattach_message)

/-! ## Network id (`Client::get_network_id`, client.rs lines 241-251)

The code feeds the node-reported `network_id` string into a
`VarBlake2b::new(32)` hasher from the external `blake2` crate, copies
the 32-byte digest into `result`, and returns
`u64::from_le_bytes(result[0..8])`.

Modelled from the spec: the `blake2` crate is not part of this
repository, so the hash is an abstract oracle, per the spec a
"fixed-output-size hash function" producing 32 bytes from the string's
bytes; the embedded `get_network_id` is the surrounding pipeline
(hash, truncate to the first 8 bytes, interpret little-endian). -/

/-- `u64::from_le_bytes`: little-endian interpretation of (up to) eight
bytes, least significant first. -/
def u64_from_le_bytes : List Nat → Nat
  | [] => 0
  | b :: rest => b + 256 * u64_from_le_bytes rest

def get_network_id (hash : List Nat → List Nat) (network_id : String) : Nat :=
  u64_from_le_bytes ((hash (network_id.toUTF8.toList.map UInt8.toNat)).take 8)

/-! ## Unspent address discovery (`GetUnspentAddressBuilder::get`,
unspent.rs lines 41-79)

The builder holds an optional BIP32 path and an optional start index.
`get` first rejects a missing path with
`Error::MissingParameter("BIP32 path")` before anything else runs; then
it loops: derive the batch of addresses at indices
`index .. index + 20` (via `find_addresses`, embedded as the pure
oracle `derive`), query each address's balance in order (`balance`
oracle), return the first address with balance `0` together with the
cursor — which was incremented once per nonzero balance, so it equals
that address's absolute derivation index — and otherwise repeat with the
cursor advanced past the batch.

The Rust `loop` has no bound, so the embedding takes a fuel argument
counting outer iterations and returns `none` when the fuel runs out
without the loop having returned.  Alongside the result it returns the
list of derivation indices whose balance was queried, in query order. -/

/-- The inner `for a in addresses` loop: walk a batch, querying each
balance; stop at the first zero balance, incrementing the cursor `index`
once per nonzero balance.  Returns the found address (if any), the final
cursor, and the queried indices. -/
def scan_batch {A : Type} (balance : A → Nat) :
    List A → Nat → Option A × Nat × List Nat
  | [], index => (none, index, [])
  | a :: rest, index =>
    if balance a = 0 then
      (some a, index, [index])
    else
      let r := scan_batch balance rest (index + 1)
      (r.1, r.2.1, index :: r.2.2)

/-- The outer `loop`: derive 20 addresses starting at the cursor, scan
the batch, return on a hit, otherwise continue with the advanced
cursor.  `none` means the fuel was exhausted with the loop still
running. -/
def scan_loop {A : Type} (derive : Nat → A) (balance : A → Nat) :
    Nat → Nat → Option ((A × Nat) × List Nat)
  | 0, _ => none
  | fuel + 1, index =>
    let addresses := (List.range' index 20).map derive
    match scan_batch balance addresses index with
    | (some a, i, q) => some ((a, i), q)
    | (none, i, q) =>
      (scan_loop derive balance fuel i).map (fun r => (r.1, q ++ r.2))

structure GetUnspentAddressBuilder (P : Type) where
  path : Option P
  index : Option Nat

/-- `GetUnspentAddressBuilder::get`.  The outer value is `none` when the
unbounded Rust loop did not return within `fuel` iterations; otherwise it
carries the `Result` together with the trace of queried indices. -/
def GetUnspentAddressBuilder.get {A P : Type}
    (self : GetUnspentAddressBuilder P) (derive : Nat → A)
    (balance : A → Nat) (fuel : Nat) :
    Option (Except Error (A × Nat) × List Nat) :=
  match self.path with
  | none => some (Except.error (Error.MissingParameter "BIP32 path"), [])
  | some _ =>
    let index := self.index.getD 0
    (scan_loop derive balance fuel index).map
      (fun r => (Except.ok r.1, r.2))

/-! ## Theorems -/

/-- Claim C1: after the cancellation signal has fired and been observed,
no later iteration of the background sync task calls `sync_nodes` — but
the claim's other half fails: the loop body contains no `break`, so
`continues` is `true` in every iteration and the task never terminates
its loop.  The second conjunct evaluates one post-cancellation iteration
directly. -/
theorem sync_task_cancel_no_further_sync_but_loops (n : Nat) :
    (sync_task_after_cancel n).all
        (fun it => !it.calls_sync_nodes && it.continues) = true ∧
    sync_loop_iteration true =
      { calls_sync_nodes := false, continues := true } := by
  constructor
  · simp [sync_task_after_cancel, sync_loop_iteration, List.all_eq_true]
  · rfl

/-- Claim C3: `reattach` on a message whose payload is absent panics
(the `unwrap` on `None`), for every tip pair, network id, builder
behaviour and posted id; in particular it does not take a returned-error
branch. -/
theorem reattach_missing_payload_panics {T P : Type} (parent1 parent2 : T)
    (nid : Nat) (tips : T × T) (network_id : Nat)
    (finish : Message T P → Except Unit (Message T P)) (posted_id : String) :
    reattach ⟨none, parent1, parent2, nid⟩ tips network_id finish posted_id =
      Outcome.panicked ∧
    ∀ e : Error,
      reattach ⟨none, parent1, parent2, nid⟩ tips network_id finish posted_id ≠
        Outcome.err e := by
  refine ⟨rfl, fun e h => ?_⟩
  simp [reattach] at h

/-- Claim C4: after one `sync_nodes` cycle, the healthy set is exactly
the configured nodes whose probe answered `Ok(true)` — independent of the
previous set contents (erroring probes count as unhealthy and do not
abort the cycle) — and it is empty when no probe answered healthy. -/
theorem sync_nodes_healthy_exact {U : Type} (st : SyncState U)
    (nodes : List U) (health : U → Option Bool) :
    (∀ n, n ∈ (sync_nodes_cycle st nodes health).sync ↔
        (n ∈ nodes ∧ health n = some true)) ∧
    ((∀ n, n ∈ nodes → health n ≠ some true) →
        (sync_nodes_cycle st nodes health).sync = []) := by
  constructor
  · intro n
    simp only [sync_nodes_cycle, sync_nodes, List.mem_filter]
    constructor
    · rintro ⟨hmem, hd⟩
      refine ⟨hmem, ?_⟩
      cases hh : health n with
      | none => rw [hh] at hd; simp at hd
      | some b => rw [hh] at hd; simp at hd; rw [hd]
    · rintro ⟨hmem, hd⟩
      exact ⟨hmem, by rw [hd]; rfl⟩
  · intro hall
    simp only [sync_nodes_cycle, sync_nodes]
    rw [List.filter_eq_nil_iff]
    intro n hn
    have := hall n hn
    cases hh : health n with
    | none => simp
    | some b =>
      cases b with
      | false => simp
      | true => exact absurd hh this

/-- Witness for C4 at a concrete pool, node list and all-unhealthy
probe outcome. -/
theorem sync_nodes_healthy_exact_witness :
    (2 ∈ (sync_nodes_cycle (⟨[9]⟩ : SyncState Nat) [1, 2, 3]
        (fun n => if n = 2 then some true else none)).sync ↔
      (2 ∈ [1, 2, 3] ∧ (if 2 = 2 then some true else none) = some true)) ∧
    (sync_nodes_cycle (⟨[9]⟩ : SyncState Nat) [1, 2]
        (fun _ => some false)).sync = [] :=
  ⟨(sync_nodes_healthy_exact ⟨[9]⟩ [1, 2, 3]
      (fun n => if n = 2 then some true else none)).1 2,
   (sync_nodes_healthy_exact ⟨[9]⟩ [1, 2] (fun _ => some false)).2
      (by decide)⟩

/-- Helper for C2: scanning a batch in which every index has nonzero
balance finds nothing, advances the cursor past the batch, and queries
every index of the batch in order. -/
theorem scan_batch_none {A : Type} (derive : Nat → A) (balance : A → Nat) :
    ∀ (k idx : Nat), (∀ i, idx ≤ i → i < idx + k → balance (derive i) ≠ 0) →
    scan_batch balance ((List.range' idx k).map derive) idx =
      (none, idx + k, List.range' idx k)
  | 0, idx, _ => by simp [scan_batch]
  | k + 1, idx, h => by
    have h0 : balance (derive idx) ≠ 0 := h idx le_rfl (by omega)
    have hrec := scan_batch_none derive balance k (idx + 1)
      (fun i hi hik => h i (by omega) (by omega))
    conv_lhs => rw [List.range'_succ, List.map_cons]
    simp only [scan_batch, if_neg h0, hrec]
    refine congrArg (Prod.mk none) (congrArg₂ Prod.mk (by omega) ?_)
    rw [List.range'_succ idx]

/-- Helper for C2: scanning a batch that contains the first zero-balance
index `r` stops at `r`, returns the address derived at `r` with the
cursor equal to `r`, and queries exactly the indices from the batch
start through `r`, in order. -/
theorem scan_batch_found {A : Type} (derive : Nat → A) (balance : A → Nat) :
    ∀ (k idx r : Nat), idx ≤ r → r < idx + k → balance (derive r) = 0 →
    (∀ i, idx ≤ i → i < r → balance (derive i) ≠ 0) →
    scan_batch balance ((List.range' idx k).map derive) idx =
      (some (derive r), r, List.range' idx (r - idx + 1))
  | 0, idx, r, hle, hlt, _, _ => absurd hlt (by omega)
  | k + 1, idx, r, hle, hlt, hz, hfirst => by
    conv_lhs => rw [List.range'_succ, List.map_cons]
    rcases Nat.eq_or_lt_of_le hle with heq | hgt
    · subst heq
      simp only [scan_batch, if_pos hz, Nat.sub_self, Nat.zero_add,
        List.range'_one]
    · have h0 : balance (derive idx) ≠ 0 := hfirst idx le_rfl hgt
      have hrec := scan_batch_found derive balance k (idx + 1) r hgt
        (by omega) hz (fun i hi hir => hfirst i (by omega) hir)
      simp only [scan_batch, if_neg h0, hrec]
      refine congrArg (Prod.mk (some (derive r))) (congrArg (Prod.mk r) ?_)
      have harith : r - idx + 1 = (r - (idx + 1) + 1) + 1 := by omega
      rw [harith, List.range'_succ idx]

/-- Helper for C2: the outer loop, started at `index` with the first
zero-balance index at `r` and enough fuel to reach it, returns the
address derived at `r` with its absolute index, and queries exactly the
indices `index .. r` in order. -/
theorem scan_loop_found {A : Type} (derive : Nat → A) (balance : A → Nat) :
    ∀ (fuel index r : Nat), index ≤ r → r < index + 20 * fuel →
    balance (derive r) = 0 →
    (∀ i, index ≤ i → i < r → balance (derive i) ≠ 0) →
    scan_loop derive balance fuel index =
      some ((derive r, r), List.range' index (r - index + 1))
  | 0, index, r, hle, hlt, _, _ => absurd hlt (by omega)
  | fuel + 1, index, r, hle, hlt, hz, hfirst => by
    by_cases hin : r < index + 20
    · simp only [scan_loop,
        scan_batch_found derive balance 20 index r hle hin hz hfirst]
    · have hall : ∀ i, index ≤ i → i < index + 20 → balance (derive i) ≠ 0 :=
        fun i hi hik => hfirst i hi (by omega)
      have hrec := scan_loop_found derive balance fuel (index + 20) r
        (by omega) (by omega) hz (fun i hi hir => hfirst i (by omega) hir)
      simp only [scan_loop, scan_batch_none derive balance 20 index hall,
        hrec, Option.map_some]
      refine congrArg some (congrArg (Prod.mk (derive r, r)) ?_)
      have happ := List.range'_append index 20 (r - (index + 20) + 1) 1
      simp only [Nat.mul_one, Nat.one_mul] at happ
      have harith : r - (index + 20) + 1 + 20 = r - index + 1 := by omega
      rw [← harith]
      exact happ

/-- Claim C2: with a path and start index set, `get` returns the first
zero-balance address (the one at the least derivation index `r ≥ start`
whose balance is `0`) together with its absolute derivation index, given
fuel covering the batches up to `r`; the balance-query trace is exactly
the indices `start .. r` in derivation order — queried in index order,
with no address after `r` ever queried, the cursor advancing 20 indices
per exhausted batch. -/
theorem get_unspent_address_first_zero {A P : Type} (p : P)
    (derive : Nat → A) (balance : A → Nat) (start r fuel : Nat)
    (hle : start ≤ r) (hz : balance (derive r) = 0)
    (hfirst : ∀ i, start ≤ i → i < r → balance (derive i) ≠ 0)
    (hfuel : r < start + 20 * fuel) :
    GetUnspentAddressBuilder.get ⟨some p, some start⟩ derive balance fuel =
      some (Except.ok (derive r, r), List.range' start (r - start + 1)) := by
  simp only [GetUnspentAddressBuilder.get, Option.getD,
    scan_loop_found derive balance fuel start r hle hfuel hz hfirst]
  rfl

/-- Witness for C2: balances `[5, 0, 3]` at indices `[0, 1, 2]` with
start index `0` yield the address at index `1` with index `1`, having
queried exactly indices `0` and `1`. -/
theorem get_unspent_address_first_zero_witness :
    GetUnspentAddressBuilder.get (P := Unit) ⟨some (), some 0⟩ (fun n => n)
      (fun n => [5, 0, 3].getD n 0) 1 =
      some (Except.ok (1, 1), [0, 1]) :=
  get_unspent_address_first_zero () (fun n => n)
    (fun n => [5, 0, 3].getD n 0) 0 1 1 (by decide) (by decide)
    (fun i _ hi => by
      have h0 : i = 0 := by omega
      rw [h0]
      decide)
    (by decide)

/-- Claim C5: `retry` queries the metadata first; if `should_promote`
is true it delegates to `promote`; otherwise if `should_reattach` is
true it delegates to `reattach`; otherwise it fails with
`NoNeedPromoteOrReattach(id)` and issues no `post_message` call. -/
theorem retry_decision (id : String) (md : MessageMetadata) :
    (retry_trace id md).head? = some ApiCall.get_message_metadata ∧
    (md.should_promote = some true →
        retry id md = Except.ok RetryDelegation.promote) ∧
    (md.should_promote ≠ some true → md.should_reattach = some true →
        retry id md = Except.ok RetryDelegation.reattach) ∧
    (md.should_promote ≠ some true → md.should_reattach ≠ some true →
        retry id md = Except.error (Error.NoNeedPromoteOrReattach id) ∧
        ApiCall.post_message ∉ retry_trace id md) := by
  obtain ⟨p, r⟩ := md
  refine ⟨rfl, ?_, ?_, ?_⟩
  · intro hp
    subst hp
    rfl
  · intro hp hr
    subst hr
    cases p with
    | none => rfl
    | some b => cases b with
      | false => rfl
      | true => exact absurd rfl hp
  · intro hp hr
    have hretry : retry id ⟨p, r⟩ =
        Except.error (Error.NoNeedPromoteOrReattach id) := by
      cases p with
      | none =>
        cases r with
        | none => rfl
        | some b => cases b with
          | false => rfl
          | true => exact absurd rfl hr
      | some b => cases b with
        | false =>
          cases r with
          | none => rfl
          | some c => cases c with
            | false => rfl
            | true => exact absurd rfl hr
        | true => exact absurd rfl hp
    refine ⟨hretry, ?_⟩
    simp [retry_trace, hretry]

/-- Witness for C5 at metadata with both flags explicitly `false`. -/
theorem retry_decision_witness :
    retry "m" ⟨some false, some false⟩ =
      Except.error (Error.NoNeedPromoteOrReattach "m") ∧
    ApiCall.post_message ∉ retry_trace "m" ⟨some false, some false⟩ :=
  (retry_decision "m" ⟨some false, some false⟩).2.2.2 (by decide) (by decide)

/-- Claim C6: calling `get` on a `GetUnspentAddressBuilder` without a
BIP32 path fails with `MissingParameter("BIP32 path")` for every seed
(derivation oracle), balance oracle, start index and fuel, with an empty
query trace — so before any derivation or balance query is issued. -/
theorem get_unspent_address_missing_path {A P : Type} (derive : Nat → A)
    (balance : A → Nat) (fuel : Nat) (index : Option Nat) :
    GetUnspentAddressBuilder.get (P := P) ⟨none, index⟩ derive balance fuel =
      some (Except.error (Error.MissingParameter "BIP32 path"), []) := rfl

/-- Claim C7: `get_node` on an empty pool snapshot fails with
`SyncedNodePoolEmpty` (the `NodePoolEmpty` of the spec's error taxonomy)
immediately; on a non-empty snapshot it returns a member of the
snapshot.  It is a pure function of the snapshot: no network call, no
mutation of the set. -/
theorem get_node_pool {U : Type} (pool : List U) :
    (pool = [] → get_node pool = Except.error Error.SyncedNodePoolEmpty) ∧
    (pool ≠ [] → ∃ u, get_node pool = Except.ok u ∧ u ∈ pool) := by
  cases pool with
  | nil => exact ⟨fun _ => rfl, fun h => absurd rfl h⟩
  | cons u rest =>
    refine ⟨fun h => by simp at h, fun _ => ⟨u, rfl, List.mem_cons_self u rest⟩⟩

/-- Witness for C7 on the empty pool and on a one-node pool. -/
theorem get_node_pool_witness :
    get_node ([] : List Nat) = Except.error Error.SyncedNodePoolEmpty ∧
    ∃ u, get_node [7] = Except.ok u ∧ u ∈ [7] :=
  ⟨(get_node_pool []).1 rfl, (get_node_pool [7]).2 (by decide)⟩

/-- Helper for C8: a little-endian byte list denotes less than
`256 ^ length`. -/
theorem u64_from_le_bytes_lt (l : List Nat) (h : ∀ b ∈ l, b < 256) :
    u64_from_le_bytes l < 256 ^ l.length := by
  induction l with
  | nil => simp [u64_from_le_bytes]
  | cons b rest ih =>
    have hb : b < 256 := h b (List.mem_cons_self b rest)
    have hr : u64_from_le_bytes rest < 256 ^ rest.length :=
      ih (fun x hx => h x (List.mem_cons_of_mem b hx))
    have hmul : 256 * (u64_from_le_bytes rest + 1) ≤ 256 * 256 ^ rest.length :=
      Nat.mul_le_mul_left 256 hr
    simp only [u64_from_le_bytes, List.length_cons, pow_succ]
    omega

/-- Claim C8: for every 32-byte-output hash oracle and reported
network-id string, `get_network_id` is the little-endian 64-bit integer
formed from the first 8 bytes of the hash of the string's bytes; it fits
in 64 bits, and it is deterministic — equal strings always yield the
same value. -/
theorem get_network_id_le_first8 (hash : List Nat → List Nat) (s : String)
    (hlen : (hash (s.toUTF8.toList.map UInt8.toNat)).length = 32)
    (hbytes : ∀ b ∈ hash (s.toUTF8.toList.map UInt8.toNat), b < 256) :
    get_network_id hash s =
      u64_from_le_bytes ((hash (s.toUTF8.toList.map UInt8.toNat)).take 8) ∧
    get_network_id hash s < 2 ^ 64 ∧
    (∀ t : String, t = s → get_network_id hash t = get_network_id hash s) := by
  refine ⟨rfl, ?_, fun t ht => by rw [ht]⟩
  have h1 : ((hash (s.toUTF8.toList.map UInt8.toNat)).take 8).length = 8 := by
    rw [List.length_take, hlen]
    rfl
  have h2 : ∀ b ∈ (hash (s.toUTF8.toList.map UInt8.toNat)).take 8, b < 256 :=
    fun b hb => hbytes b (List.mem_of_mem_take hb)
  have hbound := u64_from_le_bytes_lt _ h2
  rw [h1] at hbound
  have h256 : (256 : Nat) ^ 8 = 2 ^ 64 := by norm_num
  rw [h256] at hbound
  exact hbound

/-- Witness for C8 with a concrete all-zero 32-byte hash oracle. -/
theorem get_network_id_le_first8_witness :
    get_network_id (fun _ => List.replicate 32 0) "iota" =
      u64_from_le_bytes (((fun (_ : List Nat) => List.replicate 32 0)
        ("iota".toUTF8.toList.map UInt8.toNat)).take 8) ∧
    get_network_id (fun _ => List.replicate 32 0) "iota" < 2 ^ 64 ∧
    (∀ t : String, t = "iota" →
      get_network_id (fun _ => List.replicate 32 0) t =
        get_network_id (fun _ => List.replicate 32 0) "iota") :=
  get_network_id_le_first8 (fun _ => List.replicate 32 0) "iota"
    (by decide) (by decide)

/-- Claim C9: with `local_pow = false` (remote PoW delegation),
`ClientMiner::nonce` returns `Ok(0)` for every payload, target score and
local-search behaviour — it never invokes the local miner and never
fails. -/
theorem nonce_remote_zero {σ : Type} (miner : ClientMiner)
    (h : miner.local_pow = false)
    (localSearch : List Nat → σ → Except String Nat)
    (bytes : List Nat) (target_score : σ) :
    miner.nonce localSearch bytes target_score = Except.ok 0 := by
  simp [ClientMiner.nonce, h]

/-- Witness for C9 at a concrete payload and an always-failing local
search. -/
theorem nonce_remote_zero_witness :
    ClientMiner.nonce ⟨false⟩
      (fun _ _ => (Except.error "no" : Except String Nat)) [1, 2, 3] (0 : Nat) =
      Except.ok 0 :=
  nonce_remote_zero ⟨false⟩ rfl (fun _ _ => Except.error "no") [1, 2, 3] 0

/-- Claim C10: metadata with both flags absent is treated exactly as
both flags explicitly `false`: `retry` fails with
`NoNeedPromoteOrReattach(id)` and issues no `post_message` call. -/
theorem retry_absent_flags (id : String) :
    retry id ⟨none, none⟩ =
      Except.error (Error.NoNeedPromoteOrReattach id) ∧
    retry id ⟨none, none⟩ = retry id ⟨some false, some false⟩ ∧
    ApiCall.post_message ∉ retry_trace id ⟨none, none⟩ := by
  refine ⟨rfl, rfl, ?_⟩
  simp [retry_trace, retry]

end IotaClient
